import Mathlib

/-!
Verification of the filesystem MCP server (`mcp_server.py`).

The embedding models the path sandbox validator (`_validate_path`), the three
tool handlers (`_read_file`, `_list_directory`, `_write_file`) and the
dispatcher (`call_tool`).  Paths are caller-supplied strings; canonical paths
are lists of components.  The filesystem is an association list from absolute
component lists to entries; each handler threads the filesystem state and
records the filesystem calls it performs in a trace.
-/

namespace MCPServer

/-- Split a character list at slashes, keeping the non-empty groups;
    `cur` holds the characters of the current group in reverse. -/
def splitComponentsAux : List Char → List Char → List String
  | cur, [] => if cur = [] then [] else [String.mk cur.reverse]
  | cur, c :: cs =>
    if c = '/' then
      (if cur = [] then [] else [String.mk cur.reverse]) ++ splitComponentsAux [] cs
    else splitComponentsAux (c :: cur) cs

/-- Split a path string into its non-empty components, as `pathlib` parsing
    does (empty segments from repeated or trailing slashes are dropped). -/
def splitComponents (s : String) : List String :=
  splitComponentsAux [] s.data

/-- `os.path.isabs`: whether the path string starts with a slash. -/
def isAbsPath (s : String) : Bool :=
  match s.data with
  | [] => false
  | c :: _ => c = '/'

/-- One step of lexical canonicalization: drop a dot segment, pop on a
    dot-dot segment (staying at the filesystem root when already there,
    as `Path.resolve` does), push any other component. -/
def normStep (acc : List String) (c : String) : List String :=
  if c = "." then acc
  else if c = ".." then acc.dropLast
  else acc ++ [c]

/-- Canonicalize a component list, resolving dot and dot-dot segments as
    `Path.resolve` does on a symlink-free filesystem. -/
def normalize (cs : List String) : List String := cs.foldl normStep []

/-- Render an absolute component list the way `str(Path(...))` prints it. -/
def renderAbs (cs : List String) : String :=
  "/" ++ String.intercalate "/" cs

/-- The candidate absolute path computed by `_validate_path`: an absolute
    input is resolved as is, a relative one is joined to the allowed
    directory first. -/
def resolveCandidate (root : List String) (s : String) : List String :=
  if isAbsPath s then normalize (splitComponents s)
  else normalize (root ++ splitComponents s)

/-- A single quote character, for rendering Python exception texts. -/
def squote : String := String.mk [Char.ofNat 39]

/-- The exceptions the server's handlers can raise, mirroring the Python
    exception values (each carries the data interpolated into its text). -/
inductive Err where
  | accessDenied (orig : String) (root : List String)
  | fileNotFound (orig : String)
  | notAFile (orig : String)
  | dirNotFound (orig : String)
  | notADirectory (orig : String)
  | decodeError (orig : String)
  | unknownTool (name : String)
  | keyError (param : String)
  | typeError (msg : String)
  | isADirectory (resolved : List String)
  | fileExistsErr (resolved : List String)
  | notADirOS (resolved : List String)
deriving DecidableEq

/-- `str(e)` for each modelled exception, as CPython renders it. -/
def errMsg : Err → String
  | .accessDenied o r =>
      "Access denied: " ++ o ++ " is outside allowed directory " ++ renderAbs r
  | .fileNotFound o => "File not found: " ++ o
  | .notAFile o => "Not a file: " ++ o
  | .dirNotFound o => "Directory not found: " ++ o
  | .notADirectory o => "Not a directory: " ++ o
  | .decodeError o => "File is not a text file: " ++ o
  | .unknownTool n => "Unknown tool: " ++ n
  | .keyError p => squote ++ p ++ squote
  | .typeError m => m
  | .isADirectory r => "[Errno 21] Is a directory: " ++ squote ++ renderAbs r ++ squote
  | .fileExistsErr r => "[Errno 17] File exists: " ++ squote ++ renderAbs r ++ squote
  | .notADirOS r => "[Errno 20] Not a directory: " ++ squote ++ renderAbs r ++ squote

/-- `_validate_path`: resolve the candidate, then require the allowed
    directory to be a component-wise prefix of it (`Path.relative_to`);
    otherwise raise the access-denied `ValueError`, whose text interpolates
    the original string and the allowed directory. -/
def validatePath (root : List String) (s : String) : Except Err (List String) :=
  if root.isPrefixOf (resolveCandidate root s) then .ok (resolveCandidate root s)
  else .error (.accessDenied s root)

/-- File contents: decodable UTF-8 text, or undecodable bytes of a given
    size. -/
inductive FileData where
  | text (s : String)
  | binary (size : Nat)
deriving DecidableEq

/-- A directory entry: a regular file with contents, or a directory. -/
inductive Entry where
  | file (data : FileData)
  | dir
deriving DecidableEq

/-- The filesystem: an association list from absolute component paths to
    entries (first match wins). -/
abbrev FS := List (List String × Entry)

/-- Look up the entry at a path. -/
def lookupFS : FS → List String → Option Entry
  | [], _ => none
  | (q, e) :: rest, p => if q = p then some e else lookupFS rest p

/-- Remove every entry stored at the given path. -/
def removeKey : FS → List String → FS
  | [], _ => []
  | (q, e) :: rest, p => if q = p then removeKey rest p else (q, e) :: removeKey rest p

/-- Create or replace the entry at a path. -/
def insertFS (fs : FS) (p : List String) (e : Entry) : FS :=
  (p, e) :: removeKey fs p

instance {α β : Type} [DecidableEq α] [DecidableEq β] : DecidableEq (Except α β) := fun a b => by
  cases a <;> cases b
  case error.error x y => exact decidable_of_iff (x = y) (by simp)
  case ok.ok x y => exact decidable_of_iff (x = y) (by simp)
  all_goals exact isFalse (by simp)

/-- Whether the entry at a path is an existing regular file. -/
def isFileAt (fs : FS) (q : List String) : Bool :=
  match lookupFS fs q with
  | some (.file _) => true
  | _ => false

/-- The filesystem calls a handler can perform, for tracing. -/
inductive FsOp where
  | statOp (p : List String)
  | readOp (p : List String)
  | writeOp (p : List String)
  | mkdirOp (p : List String)
  | listOp (p : List String)
deriving DecidableEq

/-- Size in bytes reported by `stat` for a file's data. -/
def dataSize : FileData → Nat
  | .text s => s.utf8ByteSize
  | .binary n => n

/-- Universal-newline translation performed by text-mode reading with
    `newline=None`: a carriage-return/line-feed pair and a lone carriage
    return both become a single line feed. -/
def translateNewlinesAux : List Char → List Char
  | [] => []
  | [c] => if c = '\r' then ['\n'] else [c]
  | c :: d :: rest =>
    if c = '\r' then
      if d = '\n' then '\n' :: translateNewlinesAux rest
      else '\n' :: translateNewlinesAux (d :: rest)
    else c :: translateNewlinesAux (d :: rest)

/-- Universal-newline translation of a decoded string, as `read_text`
    (which opens with `newline=None`) applies it. -/
def translateNewlines (s : String) : String :=
  String.mk (translateNewlinesAux s.data)

/-- `_read_file`: validate, then check existence, regular-file-ness and
    decodability in that order; on success return the decoded contents,
    with `read_text`'s universal-newline translation applied. -/
def readFile (root : List String) (fs : FS) (path : String) :
    Except Err String × FS × List FsOp :=
  match validatePath root path with
  | .error e => (.error e, fs, [])
  | .ok fp =>
    match lookupFS fs fp with
    | none => (.error (.fileNotFound path), fs, [.statOp fp])
    | some .dir => (.error (.notAFile path), fs, [.statOp fp, .statOp fp])
    | some (.file (.binary _)) =>
        (.error (.decodeError path), fs, [.statOp fp, .statOp fp, .readOp fp])
    | some (.file (.text s)) =>
        (.ok (translateNewlines s), fs, [.statOp fp, .statOp fp, .readOp fp])

/-- The immediate children of a directory: name and entry of every
    filesystem entry whose path is the directory plus one component. -/
def children (fs : FS) (d : List String) : List (String × Entry) :=
  fs.filterMap fun qe =>
    if qe.1.dropLast = d then qe.1.getLast?.map (fun n => (n, qe.2)) else none

/-- Left-pad a string with spaces to the given width (Python right-aligned
    field formatting). -/
def padLeft (s : String) (w : Nat) : String :=
  String.mk (List.replicate (w - s.length) ' ') ++ s

/-- Right-pad a string with spaces to the given width (Python left-aligned
    field formatting). -/
def padRight (s : String) (w : Nat) : String :=
  s ++ String.mk (List.replicate (w - s.length) ' ')

/-- One listing line, as the handler formats it: kind tag in a width-6
    field, byte size right-aligned in a width-10 field, then the name. -/
def entryLine (ne : String × Entry) : String :=
  match ne with
  | (n, .dir) => padRight "DIR" 6 ++ " " ++ padLeft "0" 10 ++ " bytes  " ++ n
  | (n, .file d) =>
      padRight "FILE" 6 ++ " " ++ padLeft (toString (dataSize d)) 10 ++ " bytes  " ++ n

/-- Code-point lexicographic comparison of character lists, the order
    Python uses to compare the strings `sorted()` ranks. -/
def charListLE : List Char → List Char → Bool
  | [], _ => true
  | _ :: _, [] => false
  | a :: as, b :: bs =>
    if a.val.toNat < b.val.toNat then true
    else if b.val.toNat < a.val.toNat then false
    else charListLE as bs

/-- Ordering of listing entries by name, matching `sorted()` over the
    children of one directory (code-point lexicographic on the name). -/
def nameLE (a b : String × Entry) : Prop := charListLE a.1.data b.1.data = true

instance : DecidableRel nameLE :=
  fun a b => inferInstanceAs (Decidable (charListLE a.1.data b.1.data = true))

instance : IsTotal (String × Entry) nameLE := by
  constructor
  intro a b
  show charListLE a.1.data b.1.data = true ∨ charListLE b.1.data a.1.data = true
  generalize a.1.data = as
  generalize b.1.data = bs
  induction as generalizing bs with
  | nil => left; rfl
  | cons x xs ih =>
    cases bs with
    | nil => right; rfl
    | cons y ys =>
      by_cases h1 : x.val.toNat < y.val.toNat
      · left; simp [charListLE, h1]
      · by_cases h2 : y.val.toNat < x.val.toNat
        · right; simp [charListLE, h2]
        · rcases ih ys with h | h
          · left; simp [charListLE, h1, h2, h]
          · right; simp [charListLE, h1, h2, h]

instance : IsTrans (String × Entry) nameLE := by
  constructor
  intro a b c
  show charListLE a.1.data b.1.data = true → charListLE b.1.data c.1.data = true →
    charListLE a.1.data c.1.data = true
  generalize a.1.data = as
  generalize b.1.data = bs
  generalize c.1.data = cs
  induction as generalizing bs cs with
  | nil => intro _ _; rfl
  | cons x xs ih =>
    intro h1 h2
    cases bs with
    | nil => simp [charListLE] at h1
    | cons y ys =>
      cases cs with
      | nil => simp [charListLE] at h2
      | cons z zs =>
        simp only [charListLE] at h1 h2 ⊢
        rcases Nat.lt_trichotomy x.val.toNat y.val.toNat with hxy | hxy | hxy
        · rcases Nat.lt_trichotomy y.val.toNat z.val.toNat with hyz | hyz | hyz
          · rw [if_pos (by omega)]
          · rw [if_pos (by omega)]
          · rw [if_neg (by omega), if_pos (by omega)] at h2
            exact absurd h2 (by simp)
        · rw [if_neg (by omega), if_neg (by omega)] at h1
          rcases Nat.lt_trichotomy y.val.toNat z.val.toNat with hyz | hyz | hyz
          · rw [if_pos (by omega)]
          · rw [if_neg (by omega), if_neg (by omega)] at h2
            rw [if_neg (by omega), if_neg (by omega)]
            exact ih ys zs h1 h2
          · rw [if_neg (by omega), if_pos (by omega)] at h2
            exact absurd h2 (by simp)
        · rw [if_neg (by omega), if_pos (by omega)] at h1
          exact absurd h1 (by simp)

/-- `_list_directory`: validate, then check existence and directory-ness;
    on success return a header naming the resolved directory followed by
    one formatted line per child, children sorted by name. -/
def listDirectory (root : List String) (fs : FS) (path : String) :
    Except Err String × FS × List FsOp :=
  match validatePath root path with
  | .error e => (.error e, fs, [])
  | .ok dp =>
    match lookupFS fs dp with
    | none => (.error (.dirNotFound path), fs, [.statOp dp])
    | some (.file _) => (.error (.notADirectory path), fs, [.statOp dp, .statOp dp])
    | some .dir =>
        (.ok ("Contents of " ++ renderAbs dp ++ ":\n" ++
              String.intercalate "\n"
                ((List.insertionSort nameLE (children fs dp)).map entryLine)),
         fs, [.statOp dp, .statOp dp, .listOp dp])

/-- The non-empty proper chains of a path: all its non-empty component
    position cuts, shortest first (the directories `mkdir(parents=True)`
    must visit when creating the path). -/
def prefixChain (q : List String) : List (List String) :=
  (List.range q.length).map (fun i => q.take (i + 1))

/-- `parent.mkdir(parents=True, exist_ok=True)` on target `q`, visiting the
    chain of `q` shortest-first: an existing directory is kept, an existing
    regular file aborts with the OS error `mkdir` raises there
    (`FileExistsError` on the target itself, `NotADirectoryError` when a
    strict ancestor is the file), a missing component is created.  Returns
    the filesystem after the created directories, the trace of creations,
    and the exception if one was raised. -/
def mkdirLoop (q : List String) (fs : FS) : List (List String) → FS × List FsOp × Option Err
  | [] => (fs, [], none)
  | p :: rest =>
    match lookupFS fs p with
    | some .dir => mkdirLoop q fs rest
    | some (.file _) =>
        if p = q then (fs, [], some (.fileExistsErr q)) else (fs, [], some (.notADirOS q))
    | none =>
        let r := mkdirLoop q (insertFS fs p .dir) rest
        (r.1, .mkdirOp p :: r.2.1, r.2.2)

/-- Argument values as decoded from the wire: JSON strings or (to model
    schema-type mismatches) integers. -/
inductive Value where
  | vStr (s : String)
  | vInt (n : Int)
deriving DecidableEq

/-- The exception text of `os.fspath` applied to a non-path argument. -/
def fspathErrText : String := "expected str, bytes or os.PathLike object, not int"

/-- The exception text of `Path.write_text` given non-string data, raised
    by its type check before the target file is even opened. -/
def writeArgErrText : String := "data must be str, not int"

/-- `_write_file`: validate, create missing parent directories of the
    target (`mkdir(parents=True, exist_ok=True)`), then `write_text`: its
    type check rejects non-string data before the file is opened (so the
    target is neither created nor truncated then); for string data it opens
    for writing — a directory target raises `IsADirectoryError`, any other
    target is created or overwritten with the data.  The success text
    reports `len(content)` and the target's final component. -/
def writeFileV (root : List String) (fs : FS) (path : String) (cv : Value) :
    Except Err String × FS × List FsOp :=
  match validatePath root path with
  | .error e => (.error e, fs, [])
  | .ok fp =>
    match mkdirLoop fp.dropLast fs (prefixChain fp.dropLast) with
    | (fs1, ops, some e) => (.error e, fs1, ops)
    | (fs1, ops, none) =>
      match cv with
      | .vInt _ => (.error (.typeError writeArgErrText), fs1, ops)
      | .vStr c =>
        match lookupFS fs1 fp with
        | some .dir => (.error (.isADirectory fp), fs1, ops)
        | _ =>
            (.ok ("Successfully wrote " ++ toString c.length ++ " characters to "
                    ++ fp.getLastD ""),
             insertFS fs1 fp (.file (.text c)), ops ++ [.writeOp fp])

/-- `_write_file` with a well-typed string content. -/
def writeFile (root : List String) (fs : FS) (path : String) (c : String) :
    Except Err String × FS × List FsOp :=
  writeFileV root fs path (.vStr c)

/-- Fetch an argument from the request mapping; a missing key raises
    `KeyError` with the key as its text. -/
def getArg (args : List (String × Value)) (k : String) : Except Err Value :=
  match args.lookup k with
  | some v => .ok v
  | none => .error (.keyError k)

/-- The body of `call_tool` before exception handling: route on the tool
    name, fetching arguments in source order; an unknown name raises
    `ValueError`.  A non-string path fails in `os.path.isabs` before any
    filesystem call; a non-string content fails only inside `write_text`. -/
def dispatch (root : List String) (fs : FS) (name : String)
    (args : List (String × Value)) : Except Err String × FS × List FsOp :=
  if name = "read_file" then
    match getArg args "path" with
    | .error e => (.error e, fs, [])
    | .ok (.vStr p) => readFile root fs p
    | .ok (.vInt _) => (.error (.typeError fspathErrText), fs, [])
  else if name = "list_directory" then
    match getArg args "path" with
    | .error e => (.error e, fs, [])
    | .ok (.vStr p) => listDirectory root fs p
    | .ok (.vInt _) => (.error (.typeError fspathErrText), fs, [])
  else if name = "write_file" then
    match getArg args "path" with
    | .error e => (.error e, fs, [])
    | .ok pv =>
      match getArg args "content" with
      | .error e => (.error e, fs, [])
      | .ok cv =>
        match pv with
        | .vStr p => writeFileV root fs p cv
        | .vInt _ => (.error (.typeError fspathErrText), fs, [])
  else (.error (.unknownTool name), fs, [])

/-- Whether one character list occurs contiguously inside another. -/
def containsChars (needle : List Char) : List Char → Bool
  | [] => needle.isEmpty
  | c :: rest => needle.isPrefixOf (c :: rest) || containsChars needle rest

/-- Whether `needle` occurs as a substring of `hay`. -/
def containsStr (hay needle : String) : Bool := containsChars needle.data hay.data

/-- One text content block of a tool response. -/
structure TextContent where
  text : String
deriving DecidableEq

/-- `call_tool`: run the dispatch body under the catch-all handler — a
    normal return is delivered as one text block, any exception as one
    text block prefixed with `Error: `. -/
def callTool (root : List String) (fs : FS) (name : String)
    (args : List (String × Value)) : List TextContent × FS × List FsOp :=
  match dispatch root fs name args with
  | (.ok s, fs1, ops) => ([⟨s⟩], fs1, ops)
  | (.error e, fs1, ops) => ([⟨"Error: " ++ errMsg e⟩], fs1, ops)

/-! ## Basic lemmas about the filesystem model -/

theorem lookupFS_removeKey_ne (fs : FS) (p q : List String) (h : q ≠ p) :
    lookupFS (removeKey fs p) q = lookupFS fs q := by
  induction fs with
  | nil => rfl
  | cons pe rest ih =>
    rcases pe with ⟨r, e⟩
    by_cases hr : r = p
    · have hq : ¬ r = q := fun hh => h (hh ▸ hr)
      have hpq : ¬ p = q := fun hh => h hh.symm
      simp [removeKey, hr, lookupFS, hq, hpq, ih]
    · by_cases hq : r = q
      · simp [removeKey, hr, lookupFS, hq, h]
      · simp [removeKey, hr, lookupFS, hq, ih]

theorem lookupFS_insert_self (fs : FS) (p : List String) (e : Entry) :
    lookupFS (insertFS fs p e) p = some e := by
  simp [insertFS, lookupFS]

theorem lookupFS_insert_ne (fs : FS) (p q : List String) (e : Entry) (h : q ≠ p) :
    lookupFS (insertFS fs p e) q = lookupFS fs q := by
  have hq : ¬ p = q := fun hh => h (hh ▸ rfl)
  simp [insertFS, lookupFS, hq, lookupFS_removeKey_ne fs p q h]

theorem containsChars_at (n suf : List Char) :
    containsChars n (n ++ suf) = true := by
  cases hns : n ++ suf with
  | nil =>
    have hn : n = [] := by
      cases n with
      | nil => rfl
      | cons c cs => simp at hns
    simp [containsChars, hn] at hns ⊢
  | cons c cs =>
    have hpre : n.isPrefixOf (n ++ suf) = true := by
      rw [List.isPrefixOf_iff_prefix]
      exact List.prefix_append n suf
    rw [← hns, containsChars.eq_def]
    rw [hns] at hpre ⊢
    simp [hpre]

theorem containsChars_append (pre n suf : List Char) :
    containsChars n (pre ++ n ++ suf) = true := by
  induction pre with
  | nil => simpa using containsChars_at n suf
  | cons c cs ih =>
    rw [containsChars.eq_def]
    simp only [List.cons_append]
    rw [ih]
    simp

theorem containsStr_append (a p b : String) :
    containsStr (a ++ p ++ b) p = true := by
  simp [containsStr, String.data_append]
  simpa using containsChars_append a.data p.data b.data

/-! ## C1 and C2 -/

/-- C1: a caller-supplied path whose canonicalized candidate is neither the
    sandbox root nor a component-wise descendant of it is rejected by
    `_validate_path` with the access-denied error, and every handler then
    fails with that error touching no filesystem state and performing no
    filesystem call — in particular `_write_file` validates before creating
    any parent directory.  The component-wise check rejects sibling
    directories whose name merely extends the root's name. -/
theorem validate_denies_outside_and_no_fs_call
    (root : List String) (fs : FS) (p : String)
    (h : root.isPrefixOf (resolveCandidate root p) = false) :
    validatePath root p = .error (.accessDenied p root) ∧
    readFile root fs p = (.error (.accessDenied p root), fs, []) ∧
    listDirectory root fs p = (.error (.accessDenied p root), fs, []) ∧
    (∀ cv : Value, writeFileV root fs p cv = (.error (.accessDenied p root), fs, [])) := by
  have hv : validatePath root p = .error (.accessDenied p root) := by
    simp [validatePath, h]
  refine ⟨hv, ?_, ?_, ?_⟩ <;> intros <;> simp [readFile, listDirectory, writeFileV, hv]

/-- Witness for C1 at the sibling-escape input of the claim: root `/root`,
    requested path `/root-evil`, rejected with no filesystem call. -/
theorem validate_denies_outside_and_no_fs_call_witness :
    ["root"].isPrefixOf (resolveCandidate ["root"] "/root-evil") = false ∧
    validatePath ["root"] "/root-evil" = .error (.accessDenied "/root-evil" ["root"]) ∧
    writeFileV ["root"] [(["root"], .dir)] "/root-evil" (.vStr "x") =
      (.error (.accessDenied "/root-evil" ["root"]), [(["root"], .dir)], []) := by
  have h := validate_denies_outside_and_no_fs_call ["root"] [(["root"], .dir)]
    "/root-evil" (by decide)
  exact ⟨by decide, h.1, h.2.2.2 (.vStr "x")⟩

/-- C2: for every dispatched request of any name and arguments, the
    dispatcher returns exactly one content block, and whenever the dispatch
    body raises an exception the block is the error text of that exception,
    delivered through the normal response channel. -/
theorem call_tool_exactly_one_result
    (root : List String) (fs : FS) (name : String) (args : List (String × Value)) :
    ((callTool root fs name args).1).length = 1 ∧
    (∀ e fs1 ops, dispatch root fs name args = (.error e, fs1, ops) →
      callTool root fs name args = ([⟨"Error: " ++ errMsg e⟩], fs1, ops)) := by
  constructor
  · rcases h : dispatch root fs name args with ⟨r, fs1, ops⟩
    cases r <;> simp [callTool, h]
  · intro e fs1 ops h
    simp [callTool, h]

/-- Witness for C2 at a failing request: reading an absent file yields the
    single in-band failure block. -/
theorem call_tool_exactly_one_result_witness :
    ((callTool ["data"] [(["data"], .dir)] "read_file"
        [("path", .vStr "missing.txt")]).1).length = 1 ∧
    callTool ["data"] [(["data"], .dir)] "read_file" [("path", .vStr "missing.txt")] =
      ([⟨"Error: File not found: missing.txt"⟩], [(["data"], .dir)],
       [.statOp ["data", "missing.txt"]]) := by
  have h := call_tool_exactly_one_result ["data"] [(["data"], .dir)] "read_file"
    [("path", .vStr "missing.txt")]
  refine ⟨h.1, ?_⟩
  have h2 := h.2 (.fileNotFound "missing.txt") [(["data"], .dir)]
    [.statOp ["data", "missing.txt"]] (by decide)
  rw [h2]
  decide

/-! ## C3 -/

/-- C3 counterexample: for the rejected relative path `../etc/passwd` under
    root `/data`, the access-denied message contains the sandbox root's
    absolute path `/data` even though the caller-supplied path does not —
    the failure message leaks the sandbox's absolute filesystem layout
    beyond what the caller already supplied. -/
theorem denied_message_leaks_root :
    validatePath ["data"] "../etc/passwd" =
      .error (.accessDenied "../etc/passwd" ["data"]) ∧
    containsStr (errMsg (.accessDenied "../etc/passwd" ["data"])) (renderAbs ["data"]) = true ∧
    containsStr "../etc/passwd" (renderAbs ["data"]) = false := by
  refine ⟨by decide, by decide, by decide⟩

/-- C3 amended: the rejection error carries the original requested path —
    its message is built from the original string and the allowed
    directory, not from the resolved candidate, and contains the original
    string verbatim — but it also appends the sandbox root's absolute
    path, so the allowed directory itself is disclosed to the caller. -/
theorem denied_message_from_original_path
    (root : List String) (fs : FS) (p : String)
    (h : root.isPrefixOf (resolveCandidate root p) = false) :
    (readFile root fs p).1 = .error (.accessDenied p root) ∧
    errMsg (.accessDenied p root) =
      "Access denied: " ++ p ++ " is outside allowed directory " ++ renderAbs root ∧
    containsStr (errMsg (.accessDenied p root)) p = true := by
  have hv : validatePath root p = .error (.accessDenied p root) := by
    simp [validatePath, h]
  refine ⟨by simp [readFile, hv], rfl, ?_⟩
  have hm : errMsg (.accessDenied p root) =
      "Access denied: " ++ p ++ (" is outside allowed directory " ++ renderAbs root) := by
    simp [errMsg, String.append_assoc]
  rw [hm]
  exact containsStr_append "Access denied: " p (" is outside allowed directory " ++ renderAbs root)

/-- Witness for the amended C3 at the spec's escape scenario. -/
theorem denied_message_from_original_path_witness :
    (readFile ["data"] [(["data"], .dir)] "../etc/passwd").1 =
      .error (.accessDenied "../etc/passwd" ["data"]) ∧
    containsStr (errMsg (.accessDenied "../etc/passwd" ["data"])) "../etc/passwd" = true := by
  have h := denied_message_from_original_path ["data"] [(["data"], .dir)]
    "../etc/passwd" (by decide)
  exact ⟨h.1, h.2.2⟩

/-! ## C4 -/

theorem translateNewlinesAux_no_cr : ∀ l : List Char, ('\r') ∉ l →
    translateNewlinesAux l = l := by
  intro l
  induction l with
  | nil => intro _; rfl
  | cons c rest ih =>
    intro h
    have hc : ¬ c = '\r' := fun hh => h (hh ▸ List.mem_cons_self c rest)
    have hrest : ('\r') ∉ rest := fun hh => h (List.mem_cons_of_mem c hh)
    cases rest with
    | nil => simp [translateNewlinesAux, hc]
    | cons d rest2 =>
      simp only [translateNewlinesAux, if_neg hc]
      rw [ih hrest]

theorem translateNewlines_no_cr (s : String) (h : ('\r') ∉ s.data) :
    translateNewlines s = s := by
  obtain ⟨l⟩ := s
  rw [translateNewlines]
  rw [translateNewlinesAux_no_cr l h]

/-- C4 counterexample: `read_text` opens the file in universal-newline
    mode, so a stored lone carriage return is returned as a line feed —
    the success payload is not the file's full content as stored. -/
theorem read_file_translates_cr :
    lookupFS [(["data"], .dir), (["data", "cr.txt"], .file (.text "a\rb"))]
      ["data", "cr.txt"] = some (.file (.text "a\rb")) ∧
    (readFile ["data"] [(["data"], .dir), (["data", "cr.txt"], .file (.text "a\rb"))]
      "cr.txt").1 = .ok "a\nb" ∧
    "a\nb" ≠ "a\rb" := by
  decide

/-- C4 amended: for a sandbox-valid path, `_read_file` fails with the
    not-found error when no entry exists, the not-a-file error when the
    entry is a directory, the decode error when the contents are not valid
    text, and otherwise returns the contents with universal-newline
    translation applied — which is the full stored content exactly when the
    content has no carriage returns. -/
theorem read_file_case_analysis
    (root : List String) (fs : FS) (p : String) (fp : List String)
    (hv : validatePath root p = .ok fp) :
    (lookupFS fs fp = none → (readFile root fs p).1 = .error (.fileNotFound p)) ∧
    (lookupFS fs fp = some .dir → (readFile root fs p).1 = .error (.notAFile p)) ∧
    (∀ n, lookupFS fs fp = some (.file (.binary n)) →
      (readFile root fs p).1 = .error (.decodeError p)) ∧
    (∀ s, lookupFS fs fp = some (.file (.text s)) →
      (readFile root fs p).1 = .ok (translateNewlines s)) ∧
    (∀ s, ('\r') ∉ s.data → translateNewlines s = s) := by
  refine ⟨?_, ?_, ?_, ?_, fun s h => translateNewlines_no_cr s h⟩ <;>
    intros <;> simp_all [readFile, hv]

/-- Witness for the amended C4: reading a present carriage-return-free
    text file returns its contents verbatim, and reading an absent one
    fails with the not-found error. -/
theorem read_file_case_analysis_witness :
    (readFile ["data"] [(["data"], .dir), (["data", "a.txt"], .file (.text "hi"))]
       "a.txt").1 = .ok "hi" ∧
    (readFile ["data"] [(["data"], .dir)] "a.txt").1 =
      .error (.fileNotFound "a.txt") := by
  constructor
  · have h := (read_file_case_analysis ["data"]
      [(["data"], .dir), (["data", "a.txt"], .file (.text "hi"))] "a.txt"
      ["data", "a.txt"] (by decide)).2.2.2.1 "hi" (by decide)
    rw [h]
    decide
  · exact (read_file_case_analysis ["data"] [(["data"], .dir)] "a.txt"
      ["data", "a.txt"] (by decide)).1 (by decide)

/-! ## Lemmas about parent-directory creation -/

theorem mem_prefixChain_length {q l : List String} (h : q ∈ prefixChain l) :
    q.length ≤ l.length := by
  simp only [prefixChain, List.mem_map, List.mem_range] at h
  obtain ⟨i, _, rfl⟩ := h
  rw [List.length_take]
  exact min_le_right _ _

theorem not_mem_prefixChain_self (fp : List String) :
    fp ∉ prefixChain fp.dropLast := by
  intro h
  have h1 := mem_prefixChain_length h
  rw [List.length_dropLast] at h1
  cases fp with
  | nil => simp [prefixChain] at h
  | cons a l => simp only [List.length_cons] at h1; omega

theorem prefixChain_nodup (l : List String) : (prefixChain l).Nodup := by
  unfold prefixChain
  refine List.Nodup.map_on ?_ (List.nodup_range _)
  intro i hi j hj hij
  rw [List.mem_range] at hi hj
  have h1 : (l.take (i + 1)).length = i + 1 := by rw [List.length_take]; omega
  have h2 : (l.take (j + 1)).length = j + 1 := by rw [List.length_take]; omega
  have h3 := congrArg List.length hij
  rw [h1, h2] at h3
  omega

theorem mkdirLoop_preserves_dir (t : List String) (ps : List (List String)) :
    ∀ fs p, lookupFS fs p = some .dir →
      lookupFS (mkdirLoop t fs ps).1 p = some .dir := by
  induction ps with
  | nil => intro fs p h; simpa [mkdirLoop] using h
  | cons r rest ih =>
    intro fs p h
    cases hr : lookupFS fs r with
    | none =>
      simp only [mkdirLoop, hr]
      apply ih
      by_cases hp : p = r
      · subst hp; exact lookupFS_insert_self fs p .dir
      · rw [lookupFS_insert_ne fs r p .dir hp]; exact h
    | some e =>
      cases e with
      | dir => simp only [mkdirLoop, hr]; exact ih fs p h
      | file d =>
        simp only [mkdirLoop, hr]
        split <;> simpa using h

theorem mkdirLoop_ok_dirs (t : List String) (ps : List (List String)) :
    ∀ fs, (mkdirLoop t fs ps).2.2 = none →
      ∀ q ∈ ps, lookupFS (mkdirLoop t fs ps).1 q = some .dir := by
  induction ps with
  | nil => intro fs _ q hq; simp at hq
  | cons r rest ih =>
    intro fs h q hq
    cases hr : lookupFS fs r with
    | none =>
      have h2 : (mkdirLoop t (insertFS fs r .dir) rest).2.2 = none := by
        simpa [mkdirLoop, hr] using h
      rcases List.mem_cons.mp hq with rfl | hq2
      · simp only [mkdirLoop, hr]
        exact mkdirLoop_preserves_dir t rest (insertFS fs q .dir) q
          (lookupFS_insert_self fs q .dir)
      · simp only [mkdirLoop, hr]
        exact ih (insertFS fs r .dir) h2 q hq2
    | some e =>
      cases e with
      | dir =>
        have h2 : (mkdirLoop t fs rest).2.2 = none := by simpa [mkdirLoop, hr] using h
        rcases List.mem_cons.mp hq with rfl | hq2
        · simp only [mkdirLoop, hr]
          exact mkdirLoop_preserves_dir t rest fs q hr
        · simp only [mkdirLoop, hr]
          exact ih fs h2 q hq2
      | file d =>
        exfalso
        simp only [mkdirLoop, hr] at h
        split at h <;> simp at h

theorem mkdirLoop_not_mem (t : List String) (ps : List (List String)) :
    ∀ fs q, q ∉ ps → lookupFS (mkdirLoop t fs ps).1 q = lookupFS fs q := by
  induction ps with
  | nil => intro fs q _; simp [mkdirLoop]
  | cons r rest ih =>
    intro fs q hq
    have hq1 : q ≠ r := fun hh => hq (hh ▸ List.mem_cons_self r rest)
    have hq2 : q ∉ rest := fun hh => hq (List.mem_cons_of_mem r hh)
    cases hr : lookupFS fs r with
    | none =>
      simp only [mkdirLoop, hr]
      rw [ih (insertFS fs r .dir) q hq2, lookupFS_insert_ne fs r q .dir hq1]
    | some e =>
      cases e with
      | dir => simp only [mkdirLoop, hr]; exact ih fs q hq2
      | file d =>
        simp only [mkdirLoop, hr]
        split <;> rfl

theorem mkdirLoop_no_file_err_none (t : List String) (ps : List (List String)) :
    ∀ fs, ps.Nodup → (∀ q ∈ ps, ∀ d, lookupFS fs q ≠ some (.file d)) →
      (mkdirLoop t fs ps).2.2 = none := by
  induction ps with
  | nil => intro fs _ _; simp [mkdirLoop]
  | cons r rest ih =>
    intro fs hnd hf
    have hnd2 := (List.nodup_cons.mp hnd).2
    have hrnm := (List.nodup_cons.mp hnd).1
    cases hr : lookupFS fs r with
    | none =>
      simp only [mkdirLoop, hr]
      apply ih (insertFS fs r .dir) hnd2
      intro q hq d
      have hq1 : q ≠ r := fun hh => hrnm (hh ▸ hq)
      rw [lookupFS_insert_ne fs r q .dir hq1]
      exact hf q (List.mem_cons_of_mem r hq) d
    | some e =>
      cases e with
      | dir =>
        simp only [mkdirLoop, hr]
        exact ih fs hnd2 (fun q hq d => hf q (List.mem_cons_of_mem r hq) d)
      | file d => exact absurd hr (hf r (List.mem_cons_self r rest) d)

/-! ## C5 -/

/-- C5 counterexample: `sub` is sandbox-valid under root `/data`, but when
    `/data/sub` is an existing directory, `_write_file(sub, hello)` raises
    `IsADirectoryError` instead of creating or overwriting a file and
    reporting the characters written. -/
theorem write_file_dir_target_fails :
    validatePath ["data"] "sub" = .ok ["data", "sub"] ∧
    (writeFile ["data"] [(["data"], .dir), (["data", "sub"], .dir)] "sub" "hello").1 =
      .error (.isADirectory ["data", "sub"]) ∧
    lookupFS (writeFile ["data"] [(["data"], .dir), (["data", "sub"], .dir)]
        "sub" "hello").2.1 ["data", "sub"] = some .dir := by
  exact ⟨by decide, by decide, by decide⟩

/-- C5 amended: for every sandbox-valid path that does not resolve to an
    existing directory and none of whose parent-chain components is an
    existing regular file, `_write_file` creates the missing parent
    directories, stores exactly the given content, and reports the number
    of characters written. -/
theorem write_file_creates_parents_and_writes
    (root : List String) (fs : FS) (p c : String) (fp : List String)
    (hv : validatePath root p = .ok fp)
    (hfile : ∀ q ∈ prefixChain fp.dropLast, isFileAt fs q = false)
    (hnd : lookupFS fs fp ≠ some .dir) :
    (writeFile root fs p c).1 =
      .ok ("Successfully wrote " ++ toString c.length ++ " characters to "
            ++ fp.getLastD "") ∧
    lookupFS (writeFile root fs p c).2.1 fp = some (.file (.text c)) ∧
    (∀ q ∈ prefixChain fp.dropLast,
      lookupFS (writeFile root fs p c).2.1 q = some .dir) := by
  have hnodup := prefixChain_nodup fp.dropLast
  have hfile2 : ∀ q ∈ prefixChain fp.dropLast, ∀ d, lookupFS fs q ≠ some (.file d) := by
    intro q hq d hx
    have h1 := hfile q hq
    rw [isFileAt, hx] at h1
    simp at h1
  have herr := mkdirLoop_no_file_err_none fp.dropLast (prefixChain fp.dropLast) fs hnodup hfile2
  have hnm : fp ∉ prefixChain fp.dropLast := not_mem_prefixChain_self fp
  have hfp1 := mkdirLoop_not_mem fp.dropLast (prefixChain fp.dropLast) fs fp hnm
  have hdirs := mkdirLoop_ok_dirs fp.dropLast (prefixChain fp.dropLast) fs herr
  rcases hL : mkdirLoop fp.dropLast fs (prefixChain fp.dropLast) with ⟨fs1, ops, err⟩
  rw [hL] at herr hfp1 hdirs
  simp only at herr hfp1 hdirs
  subst herr
  have hwf : writeFile root fs p c =
      (.ok ("Successfully wrote " ++ toString c.length ++ " characters to "
              ++ fp.getLastD ""),
       insertFS fs1 fp (.file (.text c)), ops ++ [.writeOp fp]) := by
    rw [writeFile, writeFileV, hv]
    simp only [hL]
    rw [hfp1]
    cases hx : lookupFS fs fp with
    | none => rfl
    | some e =>
      cases e with
      | dir => exact absurd hx hnd
      | file d => rfl
  refine ⟨by rw [hwf], by rw [hwf]; exact lookupFS_insert_self fs1 fp _, ?_⟩
  intro q hq
  rw [hwf]
  simp only
  have hq1 : q ≠ fp := fun hh => hnm (hh ▸ hq)
  rw [lookupFS_insert_ne fs1 fp q _ hq1]
  exact hdirs q hq

/-- Witness for the amended C5 at the spec scenario: root `/data`, request
    `write_file(sub/out.txt, hello)` with `/data/sub` absent creates the
    directory, stores `hello`, and reports five characters written. -/
theorem write_file_creates_parents_and_writes_witness :
    (writeFile ["data"] [(["data"], .dir)] "sub/out.txt" "hello").1 =
      .ok "Successfully wrote 5 characters to out.txt" ∧
    lookupFS (writeFile ["data"] [(["data"], .dir)] "sub/out.txt" "hello").2.1
      ["data", "sub", "out.txt"] = some (.file (.text "hello")) ∧
    lookupFS (writeFile ["data"] [(["data"], .dir)] "sub/out.txt" "hello").2.1
      ["data", "sub"] = some .dir := by
  have h := write_file_creates_parents_and_writes ["data"] [(["data"], .dir)]
    "sub/out.txt" "hello" ["data", "sub", "out.txt"] (by decide)
    (by decide) (by decide)
  refine ⟨by rw [h.1]; decide, h.2.1, ?_⟩
  exact h.2.2 ["data", "sub"] (by decide)

/-! ## C6 -/

/-- C6: for a sandbox-valid path, `_list_directory` fails with the
    not-found error when no entry exists and the not-a-directory error when
    the entry is a file; otherwise it returns a header naming the resolved
    directory followed by one line per immediate child — kind and byte size
    (0 for directories) — with the children sorted by name. -/
theorem list_directory_case_analysis
    (root : List String) (fs : FS) (p : String) (dp : List String)
    (hv : validatePath root p = .ok dp) :
    (lookupFS fs dp = none → (listDirectory root fs p).1 = .error (.dirNotFound p)) ∧
    (∀ d, lookupFS fs dp = some (.file d) →
      (listDirectory root fs p).1 = .error (.notADirectory p)) ∧
    (lookupFS fs dp = some .dir →
      (listDirectory root fs p).1 =
        .ok ("Contents of " ++ renderAbs dp ++ ":\n" ++
             String.intercalate "\n"
               ((List.insertionSort nameLE (children fs dp)).map entryLine)) ∧
      List.Sorted nameLE (List.insertionSort nameLE (children fs dp)) ∧
      List.Perm (List.insertionSort nameLE (children fs dp)) (children fs dp)) := by
  refine ⟨?_, ?_, ?_⟩
  · intro h; simp [listDirectory, hv, h]
  · intro d h; simp [listDirectory, hv, h]
  · intro h
    exact ⟨by simp [listDirectory, hv, h], List.sorted_insertionSort nameLE _,
      List.perm_insertionSort nameLE _⟩

/-- Witness for C6 at the spec scenario: `/data` holding a ten-byte
    `x.txt` and a subdirectory `y`, listed in lexicographic order with the
    directory sized 0. -/
theorem list_directory_case_analysis_witness :
    (listDirectory ["data"]
        [(["data"], .dir), (["data", "x.txt"], .file (.text "0123456789")),
         (["data", "y"], .dir)] ".").1 =
      .ok "Contents of /data:\nFILE           10 bytes  x.txt\nDIR             0 bytes  y" := by
  have h := (list_directory_case_analysis ["data"]
    [(["data"], .dir), (["data", "x.txt"], .file (.text "0123456789")),
     (["data", "y"], .dir)] "." ["data"] (by decide)).2.2 (by decide)
  rw [h.1]
  decide

/-! ## C7 -/

/-- C7 counterexample: a `write_file` request whose `content` value is an
    integer rather than the declared string is not rejected by argument
    validation — the handler runs and creates the parent directory (a
    filesystem operation) before `write_text`'s type check raises; the
    failure text does not name the offending parameter, and the target file
    itself is never created. -/
theorem type_mismatch_reaches_filesystem :
    (callTool ["data"] [(["data"], .dir)] "write_file"
        [("path", .vStr "sub/f.txt"), ("content", .vInt 5)]).2.2 ≠ [] ∧
    lookupFS (callTool ["data"] [(["data"], .dir)] "write_file"
        [("path", .vStr "sub/f.txt"), ("content", .vInt 5)]).2.1 ["data", "sub"] =
      some .dir ∧
    lookupFS [(["data"], Entry.dir)] ["data", "sub"] = none ∧
    lookupFS (callTool ["data"] [(["data"], .dir)] "write_file"
        [("path", .vStr "sub/f.txt"), ("content", .vInt 5)]).2.1
      ["data", "sub", "f.txt"] = none ∧
    (callTool ["data"] [(["data"], .dir)] "write_file"
        [("path", .vStr "sub/f.txt"), ("content", .vInt 5)]).1 =
      [⟨"Error: " ++ writeArgErrText⟩] ∧
    containsStr ("Error: " ++ writeArgErrText) "content" = false := by
  decide

/-- C7 amended: a request missing a required parameter yields a single
    failure naming that parameter (the `KeyError` text) with no filesystem
    operation performed; supplied values, however, are not checked against
    the declared types, so a wrongly-typed value reaches the handler and
    can cause filesystem operations before failing. -/
theorem missing_argument_rejected
    (root : List String) (fs : FS) (args : List (String × Value)) :
    (args.lookup "path" = none →
      callTool root fs "read_file" args =
        ([⟨"Error: " ++ errMsg (.keyError "path")⟩], fs, []) ∧
      callTool root fs "list_directory" args =
        ([⟨"Error: " ++ errMsg (.keyError "path")⟩], fs, []) ∧
      callTool root fs "write_file" args =
        ([⟨"Error: " ++ errMsg (.keyError "path")⟩], fs, [])) ∧
    (∀ v, args.lookup "path" = some v → args.lookup "content" = none →
      callTool root fs "write_file" args =
        ([⟨"Error: " ++ errMsg (.keyError "content")⟩], fs, [])) := by
  constructor
  · intro h
    refine ⟨?_, ?_, ?_⟩ <;> simp [callTool, dispatch, getArg, h]
  · intro v h1 h2
    simp [callTool, dispatch, getArg, h1, h2]

/-- Witness for the amended C7: an empty argument mapping is rejected
    naming `path`, and a `write_file` call without `content` is rejected
    naming `content`, both without touching the filesystem. -/
theorem missing_argument_rejected_witness :
    callTool ["data"] [(["data"], .dir)] "read_file" [] =
      ([⟨"Error: " ++ errMsg (.keyError "path")⟩], [(["data"], .dir)], []) ∧
    callTool ["data"] [(["data"], .dir)] "write_file" [("path", .vStr "a.txt")] =
      ([⟨"Error: " ++ errMsg (.keyError "content")⟩], [(["data"], .dir)], []) := by
  have h1 := missing_argument_rejected ["data"] [(["data"], .dir)] []
  have h2 := missing_argument_rejected ["data"] [(["data"], .dir)] [("path", .vStr "a.txt")]
  exact ⟨(h1.1 (by decide)).1, h2.2 (.vStr "a.txt") (by decide) (by decide)⟩

/-! ## C8 -/

/-- C8: every request whose operation name is not in the catalogue is
    answered with the unknown-tool failure through the normal response
    channel, with the filesystem untouched and no call performed. -/
theorem unknown_tool_failure
    (root : List String) (fs : FS) (name : String) (args : List (String × Value))
    (h1 : name ≠ "read_file") (h2 : name ≠ "list_directory") (h3 : name ≠ "write_file") :
    callTool root fs name args = ([⟨"Error: " ++ errMsg (.unknownTool name)⟩], fs, []) ∧
    errMsg (.unknownTool name) = "Unknown tool: " ++ name := by
  refine ⟨?_, rfl⟩
  simp [callTool, dispatch, h1, h2, h3]

/-- Witness for C8 at a concrete unknown operation name. -/
theorem unknown_tool_failure_witness :
    callTool ["data"] [] "delete_file" [] =
      ([⟨"Error: Unknown tool: delete_file"⟩], [], []) := by
  have h := unknown_tool_failure ["data"] [] "delete_file" []
    (by decide) (by decide) (by decide)
  rw [h.1]
  decide

/-! ## C9 -/

/-- C9 counterexample: the round trip is not byte-for-byte — writing
    content with a lone carriage return succeeds and stores it, but reading
    it back returns the universal-newline translation, a line feed. -/
theorem roundtrip_loses_cr :
    (writeFile ["data"] [(["data"], .dir)] "f.txt" "a\rb").1 =
      .ok "Successfully wrote 3 characters to f.txt" ∧
    (readFile ["data"] (writeFile ["data"] [(["data"], .dir)] "f.txt" "a\rb").2.1
      "f.txt").1 = .ok "a\nb" ∧
    "a\nb" ≠ "a\rb" := by
  decide

/-- C9 amended: a successful `_write_file` followed by `_read_file` of the
    same caller-supplied path returns exactly the written content whenever
    the content contains no carriage-return characters; in general the read
    returns the content with universal-newline translation applied. -/
theorem write_then_read_roundtrip
    (root : List String) (fs : FS) (p c msg : String) (fs1 : FS) (ops : List FsOp)
    (h : writeFile root fs p c = (.ok msg, fs1, ops))
    (hcr : ('\r') ∉ c.data) :
    (readFile root fs1 p).1 = .ok c := by
  rw [writeFile] at h
  unfold writeFileV at h
  split at h
  · simp at h
  case _ fp hv =>
    split at h
    · simp at h
    case _ fs2 ops2 hL =>
      split at h
      · simp at h
      case _ cv c2 heq =>
        injection heq with hc2
        subst hc2
        split at h
        · simp at h
        case _ hne =>
          simp only [Prod.mk.injEq, Except.ok.injEq] at h
          obtain ⟨-, h2, -⟩ := h
          simp [readFile, hv, ← h2, lookupFS_insert_self, translateNewlines_no_cr _ hcr]

/-- Witness for the amended C9: writing `hello` to `sub/out.txt` and
    reading it back returns `hello`. -/
theorem write_then_read_roundtrip_witness :
    (readFile ["data"]
      (writeFile ["data"] [(["data"], .dir)] "sub/out.txt" "hello").2.1
      "sub/out.txt").1 = .ok "hello" := by
  exact write_then_read_roundtrip ["data"] [(["data"], .dir)] "sub/out.txt" "hello"
    "Successfully wrote 5 characters to out.txt"
    (writeFile ["data"] [(["data"], .dir)] "sub/out.txt" "hello").2.1
    (writeFile ["data"] [(["data"], .dir)] "sub/out.txt" "hello").2.2
    (by decide) (by decide)

/-! ## C10 -/

/-- C10: failures are signalled in band — every call produces a single
    text block, a failing call produces exactly the exception text behind
    the fixed `Error: ` marker in the same wire shape as a success, and a
    successful read of a file whose stored content happens to spell such a
    failure text is indistinguishable from the failure itself. -/
theorem failures_in_band :
    (∀ (root : List String) (fs : FS) (name : String) (args : List (String × Value)),
      ∃ t : TextContent, (callTool root fs name args).1 = [t]) ∧
    (∀ (root : List String) (fs : FS) (name : String) (args : List (String × Value))
      (e : Err) (fs1 : FS) (ops : List FsOp),
      dispatch root fs name args = (.error e, fs1, ops) →
      (callTool root fs name args).1 = [⟨"Error: " ++ errMsg e⟩]) ∧
    (callTool ["data"]
        [(["data"], .dir),
         (["data", "trap.txt"], .file (.text "Error: File not found: missing.txt"))]
        "read_file" [("path", .vStr "trap.txt")]).1 =
      (callTool ["data"]
        [(["data"], .dir),
         (["data", "trap.txt"], .file (.text "Error: File not found: missing.txt"))]
        "read_file" [("path", .vStr "missing.txt")]).1 := by
  refine ⟨?_, ?_, by decide⟩
  · intro root fs name args
    rcases h : dispatch root fs name args with ⟨r, fs1, ops⟩
    cases r with
    | error e => exact ⟨⟨"Error: " ++ errMsg e⟩, by simp [callTool, h]⟩
    | ok s => exact ⟨⟨s⟩, by simp [callTool, h]⟩
  · intro root fs name args e fs1 ops h
    simp [callTool, h]

/-- Witness for C10 at a concrete failing call: listing an absent
    directory yields the single in-band error block. -/
theorem failures_in_band_witness :
    (callTool ["data"] [] "list_directory" [("path", .vStr "nope")]).1 =
      [⟨"Error: " ++ errMsg (.dirNotFound "nope")⟩] := by
  exact failures_in_band.2.1 ["data"] [] "list_directory" [("path", .vStr "nope")]
    (.dirNotFound "nope") [] [.statOp ["data", "nope"]] (by decide)

end MCPServer
